import Mathlib

/-!
# prototester — verification of the statistics, scoring, codec and fallback core

Shallow embedding of the pure core of the `prototester` CLI (`main.go`) and of
its GUI twin (`prototester-gui/internal/tester/tester.go`).  Durations are
modelled as nanosecond counts in `ℕ` (Go's `time.Duration` is an integer
nanosecond count; division truncates, which on nonnegative values is `ℕ` floor
division), Go `float64` score arithmetic as exact rationals in `ℚ`, byte
buffers as `List ℕ` with entries below 256, and fallible operations as
`Option`.  `math.Sqrt` of a nonnegative real followed by truncation to an
integer duration is `Nat.sqrt` of the floored radicand, since
`⌊√x⌋ = Nat.sqrt ⌊x⌋` for every real `x ≥ 0`.
-/

namespace ProtoTester

/-- One probe outcome (`PingResult` in the Go sources); only the fields the
statistics reduction reads are kept, with latency in nanoseconds. -/
structure PingResult where
  success : Bool
  latency : ℕ
  deriving Repr, DecidableEq

/-- Aggregate statistics (`Statistics` in the Go sources); duration fields in
nanoseconds. -/
structure Statistics where
  Sent : ℕ
  Received : ℕ
  Lost : ℕ
  Min : ℕ
  Max : ℕ
  Avg : ℕ
  StdDev : ℕ
  Jitter : ℕ
  Latencies : List ℕ
  deriving Repr, DecidableEq

/-- The latencies of the successful probes, in arrival order: the loop in
`calculateStats` appends `result.Latency` for every result with
`result.Success`. -/
def successLatencies (results : List PingResult) : List ℕ :=
  (results.filter (fun r => r.success)).map (fun r => r.latency)

/-- `calculateStats` from `main.go` lines 3040–3091 (byte-identical copy in
`tester.go` lines 1276–1329).  `sort.Slice` with `latencies[i] < latencies[j]`
is an ascending sort, modelled by `List.insertionSort`; `stats.Latencies`
aliases the in-place-sorted slice, hence holds the sorted sequence.  The
variance loop accumulates `(lat - avg)²` with `avg` already truncated to
nanoseconds; the jitter loop accumulates `|latencies[i] - latencies[i-1]|`
over the sorted slice and divides by `N - 1`. -/
def calculateStats (results : List PingResult) : Statistics :=
  let sent := results.length
  let latencies := successLatencies results
  let received := latencies.length
  let lost := sent - received
  if latencies.isEmpty then
    { Sent := sent, Received := received, Lost := lost,
      Min := 0, Max := 0, Avg := 0, StdDev := 0, Jitter := 0, Latencies := [] }
  else
    let sorted := List.insertionSort (fun a b => a ≤ b) latencies
    let sum := sorted.sum
    let avg := sum / received
    let varianceSum := (sorted.map (fun lat : ℕ => ((lat : ℤ) - (avg : ℤ)) ^ 2)).sum
    let stdDev := Nat.sqrt (varianceSum.toNat / received)
    let jitterSum := ((sorted.zip sorted.tail).map
      (fun p : ℕ × ℕ => ((p.2 : ℤ) - (p.1 : ℤ)).natAbs)).sum
    let jitter := if 1 < received then jitterSum / (received - 1) else 0
    { Sent := sent, Received := received, Lost := lost,
      Min := sorted.headD 0, Max := sorted.getLastD 0, Avg := avg,
      StdDev := stdDev, Jitter := jitter, Latencies := sorted }

/-- The ascending sort that `sort.Slice` performs in place inside
`calculateStats`. -/
def sortedLatencies (results : List PingResult) : List ℕ :=
  List.insertionSort (fun a b => a ≤ b) (successLatencies results)

lemma calculateStats_Sent (results : List PingResult) :
    (calculateStats results).Sent = results.length := by
  simp only [calculateStats]
  split <;> rfl

lemma calculateStats_Received (results : List PingResult) :
    (calculateStats results).Received = (successLatencies results).length := by
  simp only [calculateStats]
  split <;> rfl

lemma calculateStats_Lost (results : List PingResult) :
    (calculateStats results).Lost =
      results.length - (successLatencies results).length := by
  simp only [calculateStats]
  split <;> rfl

lemma calculateStats_of_empty {results : List PingResult}
    (h : successLatencies results = []) :
    (calculateStats results).Min = 0 ∧ (calculateStats results).Max = 0 ∧
    (calculateStats results).Avg = 0 ∧ (calculateStats results).StdDev = 0 ∧
    (calculateStats results).Jitter = 0 := by
  simp [calculateStats, h]

/-- **C1**: for every sequence of probe results reduced by `calculateStats`,
`Sent` equals the length of the input sequence, `Received` equals the number
of results with `Success` true, `Sent = Received + Lost`, and when `Received`
is zero the `Min`, `Max`, `Avg`, `StdDev` and `Jitter` fields are all zero
rather than undefined; the reduction is total, so no input makes it fail. -/
theorem calculateStats_invariants (results : List PingResult) :
    (calculateStats results).Sent = results.length ∧
    (calculateStats results).Received =
      (results.filter (fun r => r.success)).length ∧
    (calculateStats results).Sent =
      (calculateStats results).Received + (calculateStats results).Lost ∧
    ((calculateStats results).Received = 0 →
      (calculateStats results).Min = 0 ∧ (calculateStats results).Max = 0 ∧
      (calculateStats results).Avg = 0 ∧ (calculateStats results).StdDev = 0 ∧
      (calculateStats results).Jitter = 0) := by
  have hlen : (successLatencies results).length =
      (results.filter (fun r => r.success)).length := by
    simp [successLatencies]
  have hle : (results.filter (fun r => r.success)).length ≤ results.length :=
    List.length_filter_le _ _
  refine ⟨calculateStats_Sent results, hlen ▸ calculateStats_Received results,
    ?_, fun hzero => ?_⟩
  · rw [calculateStats_Sent, calculateStats_Received, calculateStats_Lost]
    omega
  · refine calculateStats_of_empty (List.length_eq_zero.mp ?_)
    rw [← calculateStats_Received]
    exact hzero

/-- Witness for `calculateStats_invariants`: a concrete all-failed run of one
probe exercises the zero-received branch. -/
theorem calculateStats_invariants_witness :
    (calculateStats [{ success := false, latency := 5 }]).Received = 0 ∧
    (calculateStats [{ success := false, latency := 5 }]).Min = 0 ∧
    (calculateStats [{ success := false, latency := 5 }]).Jitter = 0 := by
  have h := calculateStats_invariants [{ success := false, latency := 5 }]
  have hrec : (calculateStats [{ success := false, latency := 5 }]).Received = 0 := by
    rw [h.2.1]; decide
  exact ⟨hrec, (h.2.2.2 hrec).1, (h.2.2.2 hrec).2.2.2.2⟩

lemma isEmpty_false_of_ne {l : List ℕ} (h : l ≠ []) : l.isEmpty = false := by
  cases l with
  | nil => exact absurd rfl h
  | cons a t => rfl

lemma calculateStats_of_ne {results : List PingResult}
    (h : successLatencies results ≠ []) :
    (calculateStats results).Min = (sortedLatencies results).headD 0 ∧
    (calculateStats results).Max = (sortedLatencies results).getLastD 0 ∧
    (calculateStats results).Avg =
      (sortedLatencies results).sum / (successLatencies results).length ∧
    (calculateStats results).StdDev =
      Nat.sqrt ((((sortedLatencies results).map
        (fun lat : ℕ => ((lat : ℤ) -
          (((sortedLatencies results).sum / (successLatencies results).length : ℕ) : ℤ)) ^ 2)).sum).toNat /
        (successLatencies results).length) ∧
    (calculateStats results).Jitter =
      (if 1 < (successLatencies results).length then
        (((sortedLatencies results).zip (sortedLatencies results).tail).map
          (fun p : ℕ × ℕ => ((p.2 : ℤ) - (p.1 : ℤ)).natAbs)).sum /
          ((successLatencies results).length - 1)
      else 0) ∧
    (calculateStats results).Latencies = sortedLatencies results := by
  have hin : (successLatencies results).isEmpty = false := isEmpty_false_of_ne h
  simp [calculateStats, hin, sortedLatencies]

lemma headD_le_of_sorted {l : List ℕ}
    (hs : List.Sorted (fun a b => a ≤ b) l) : ∀ x ∈ l, l.headD 0 ≤ x := by
  intro x hx
  cases l with
  | nil => cases hx
  | cons a t =>
    rcases List.mem_cons.mp hx with rfl | hx
    · exact le_refl x
    · exact List.rel_of_sorted_cons hs x hx

lemma le_getLastD_of_sorted {l : List ℕ}
    (hs : List.Sorted (fun a b => a ≤ b) l) : ∀ x ∈ l, x ≤ l.getLastD 0 := by
  induction l with
  | nil => intro x hx; cases hx
  | cons a t ih =>
    intro x hx
    cases t with
    | nil =>
      rcases List.mem_cons.mp hx with rfl | hx
      · rfl
      · cases hx
    | cons b t2 =>
      have hlast : (a :: b :: t2).getLastD 0 = (b :: t2).getLastD 0 := by
        simp [List.getLastD_cons]
      rw [hlast]
      rcases List.mem_cons.mp hx with rfl | hx
      · have hxb : x ≤ b := List.rel_of_sorted_cons hs b (by simp)
        exact le_trans hxb (ih hs.of_cons b (by simp))
      · exact ih hs.of_cons x hx

lemma zip_tail_pairs_le {l : List ℕ}
    (hs : List.Sorted (fun a b => a ≤ b) l) :
    ∀ p ∈ l.zip l.tail, p.1 ≤ p.2 := by
  induction l with
  | nil => intro p hp; cases hp
  | cons a t ih =>
    cases t with
    | nil => intro p hp; cases hp
    | cons b t2 =>
      intro p hp
      simp only [List.tail_cons, List.zip_cons_cons, List.mem_cons] at hp
      rcases hp with rfl | hp
      · exact List.rel_of_sorted_cons hs b (by simp)
      · exact ih hs.of_cons p (by simpa using hp)

lemma jitter_map_natAbs_eq {l : List ℕ}
    (hs : List.Sorted (fun a b => a ≤ b) l) :
    (l.zip l.tail).map (fun p : ℕ × ℕ => ((p.2 : ℤ) - (p.1 : ℤ)).natAbs) =
      (l.zip l.tail).map (fun p : ℕ × ℕ => p.2 - p.1) := by
  refine List.map_congr_left (fun p hp => ?_)
  have := zip_tail_pairs_le hs p hp
  omega

lemma telescope_sum_of_sorted {l : List ℕ}
    (hs : List.Sorted (fun a b => a ≤ b) l) :
    ((l.zip l.tail).map (fun p => p.2 - p.1)).sum =
      l.getLastD 0 - l.headD 0 := by
  induction l with
  | nil => simp
  | cons a t ih =>
    cases t with
    | nil => simp
    | cons b t2 =>
      have hab : a ≤ b := List.rel_of_sorted_cons hs b (by simp)
      have hbl : b ≤ (b :: t2).getLastD 0 :=
        le_getLastD_of_sorted hs.of_cons b (by simp)
      have hrec := ih hs.of_cons
      have hlast : (a :: b :: t2).getLastD 0 = (b :: t2).getLastD 0 := by
        simp [List.getLastD_cons]
      simp only [List.tail_cons, List.zip_cons_cons, List.map_cons,
        List.sum_cons] at hrec ⊢
      rw [hrec, hlast]
      simp only [List.headD_cons]
      omega

lemma sum_toNat_of_nonneg :
    ∀ (l : List ℤ), (∀ x ∈ l, 0 ≤ x) → l.sum.toNat = (l.map Int.toNat).sum := by
  intro l
  induction l with
  | nil => intro _; rfl
  | cons a t ih =>
    intro hnn
    have ha : 0 ≤ a := hnn a (by simp)
    have ht : 0 ≤ t.sum := List.sum_nonneg (fun x hx => hnn x (by simp [hx]))
    simp only [List.sum_cons, List.map_cons]
    rw [Int.toNat_add ha ht, ih (fun x hx => hnn x (by simp [hx]))]

/-- **C7**: for every non-empty set of successful latencies the statistics are
computed over the ascending-sorted sequence: `Min`/`Max` are its first and
last elements (equivalently the minimum and maximum of the latency multiset),
`Avg` is the arithmetic mean truncated to integer nanoseconds, `StdDev` is the
square root of the population variance (dividing the sum of squared deviations
by `N`, not `N - 1`), and `Jitter` is the mean absolute difference between
consecutive entries of the sorted sequence (dividing the sum by `N - 1`) —
which by telescoping equals `(Max - Min) / (N - 1)`. -/
theorem calculateStats_moments (results : List PingResult)
    (hne : successLatencies results ≠ []) :
    ((calculateStats results).Min ∈ successLatencies results ∧
      ∀ x ∈ successLatencies results, (calculateStats results).Min ≤ x) ∧
    ((calculateStats results).Max ∈ successLatencies results ∧
      ∀ x ∈ successLatencies results, x ≤ (calculateStats results).Max) ∧
    (calculateStats results).Avg =
      (successLatencies results).sum / (successLatencies results).length ∧
    (calculateStats results).StdDev =
      Nat.sqrt (((successLatencies results).map
        (fun lat : ℕ => (((lat : ℤ) - ((calculateStats results).Avg : ℤ)) ^ 2).toNat)).sum /
        (successLatencies results).length) ∧
    (calculateStats results).Latencies = sortedLatencies results ∧
    List.Sorted (fun a b => a ≤ b) (calculateStats results).Latencies ∧
    (calculateStats results).Jitter =
      (if 1 < (successLatencies results).length then
        (((calculateStats results).Latencies.zip
            (calculateStats results).Latencies.tail).map
          (fun p => p.2 - p.1)).sum / ((successLatencies results).length - 1)
      else 0) ∧
    (1 < (successLatencies results).length →
      (calculateStats results).Jitter =
        ((calculateStats results).Max - (calculateStats results).Min) /
          ((successLatencies results).length - 1)) := by
  obtain ⟨hMin, hMax, hAvg, hStd, hJit, hLat⟩ := calculateStats_of_ne hne
  have hperm : List.Perm (sortedLatencies results) (successLatencies results) :=
    List.perm_insertionSort _ _
  have hsorted : List.Sorted (fun a b => a ≤ b) (sortedLatencies results) :=
    List.sorted_insertionSort _ _
  have hSne : sortedLatencies results ≠ [] := by
    intro hcon
    exact hne (List.length_eq_zero.mp (by rw [← hperm.length_eq, hcon]; rfl))
  have hsum : (sortedLatencies results).sum = (successLatencies results).sum :=
    hperm.sum_eq
  have hheadmem : (sortedLatencies results).headD 0 ∈ sortedLatencies results := by
    cases hS : sortedLatencies results with
    | nil => exact absurd hS hSne
    | cons a t => simp
  have hlastmem : (sortedLatencies results).getLastD 0 ∈ sortedLatencies results := by
    cases hS : sortedLatencies results with
    | nil => exact absurd hS hSne
    | cons a t =>
      rw [List.getLastD_eq_getLast?, List.getLast?_eq_getLast (a :: t) (by simp)]
      simp [List.getLast_mem]
  refine ⟨⟨?_, ?_⟩, ⟨?_, ?_⟩, ?_, ?_, hLat, hLat ▸ hsorted, ?_, ?_⟩
  · rw [hMin]; exact hperm.mem_iff.mp hheadmem
  · intro x hx
    rw [hMin]
    exact headD_le_of_sorted hsorted x (hperm.mem_iff.mpr hx)
  · rw [hMax]; exact hperm.mem_iff.mp hlastmem
  · intro x hx
    rw [hMax]
    exact le_getLastD_of_sorted hsorted x (hperm.mem_iff.mpr hx)
  · rw [hAvg, hsum]
  · rw [hStd, hAvg, hsum]
    congr 1
    have hmapperm := hperm.map
      (fun lat : ℕ => ((lat : ℤ) -
        (((successLatencies results).sum / (successLatencies results).length : ℕ) : ℤ)) ^ 2)
    rw [hsum] at hStd
    congr 1
    rw [hmapperm.sum_eq, sum_toNat_of_nonneg _ (by
      intro x hx
      simp only [List.mem_map] at hx
      obtain ⟨lat, _, rfl⟩ := hx
      positivity), List.map_map]
    rfl
  · rw [hJit, hLat]
    by_cases hn : 1 < (successLatencies results).length
    · simp only [hn, if_true]
      rw [jitter_map_natAbs_eq hsorted]
    · simp only [hn, if_false]
  · intro hn
    rw [hJit, hMax, hMin]
    simp only [hn, if_true]
    rw [jitter_map_natAbs_eq hsorted, telescope_sum_of_sorted hsorted]

/-- Witness for `calculateStats_moments`: a concrete three-probe run with
latencies 30, 10, 20 ns (one failure interleaved). -/
theorem calculateStats_moments_witness :
    (calculateStats [⟨true, 30⟩, ⟨false, 99⟩, ⟨true, 10⟩, ⟨true, 20⟩]).Avg =
      (successLatencies [⟨true, 30⟩, ⟨false, 99⟩, ⟨true, 10⟩, ⟨true, 20⟩]).sum /
        (successLatencies [⟨true, 30⟩, ⟨false, 99⟩, ⟨true, 10⟩, ⟨true, 20⟩]).length ∧
    (1 < (successLatencies [⟨true, 30⟩, ⟨false, 99⟩, ⟨true, 10⟩, ⟨true, 20⟩]).length →
      (calculateStats [⟨true, 30⟩, ⟨false, 99⟩, ⟨true, 10⟩, ⟨true, 20⟩]).Jitter =
        ((calculateStats [⟨true, 30⟩, ⟨false, 99⟩, ⟨true, 10⟩, ⟨true, 20⟩]).Max -
          (calculateStats [⟨true, 30⟩, ⟨false, 99⟩, ⟨true, 10⟩, ⟨true, 20⟩]).Min) /
          ((successLatencies [⟨true, 30⟩, ⟨false, 99⟩, ⟨true, 10⟩, ⟨true, 20⟩]).length - 1)) := by
  have h := calculateStats_moments [⟨true, 30⟩, ⟨false, 99⟩, ⟨true, 10⟩, ⟨true, 20⟩]
    (by decide)
  exact ⟨h.2.2.1, h.2.2.2.2.2.2.2⟩

/-- The percentile index computed in `printProtocolStats` (`main.go`, two
identical copies at lines 1083–1089 and 3156–3162):
`idx := int(float64(p)/100.0*float64(n)) - 1`, then clamped below to `0` and
above to `n - 1`.  Truncating the nonnegative float product is taking the
floor `⌊p·n/100⌋`, modelled exactly by `ℕ` division. -/
def percentileIndex (p n : ℕ) : ℕ :=
  (let idx0 : ℤ := ((p * n / 100 : ℕ) : ℤ) - 1
   let idx1 : ℤ := if idx0 < 0 then 0 else idx0
   let idx2 : ℤ := if (n : ℤ) ≤ idx1 then (n : ℤ) - 1 else idx1
   idx2).toNat

/-- The reported percentile value: `stats.Latencies[idx]` over the sorted
latency slice. -/
def percentileValue (p : ℕ) (latencies : List ℕ) : ℕ :=
  latencies.getD (percentileIndex p latencies.length) 0

/-- Modelled from the spec's words: the nearest-rank index
`⌈p/100 × n⌉ − 1`, clamped to `[0, n−1]` (in `ℕ`, `⌈p·n/100⌉ = (p·n+99)/100`
and the low clamp is absorbed by truncated subtraction). -/
def ceilPercentileIndex (p n : ℕ) : ℕ :=
  min (n - 1) ((p * n + 99) / 100 - 1)

/-- **C3 counterexample**: for the sorted three-element list `[10, 20, 30]`
and `p = 50`, the code reports the element at index `⌊50·3/100⌋ − 1 = 0`,
namely `10`, while the claimed ceiling rule `⌈50·3/100⌉ − 1 = 1` selects
`20`. -/
theorem percentile_index_counterexample :
    percentileValue 50 [10, 20, 30] = 10 ∧
    [10, 20, 30].getD (ceilPercentileIndex 50 3) 0 = 20 := by
  decide

lemma percentileIndex_eq_min (p n : ℕ) (hn : 0 < n) :
    percentileIndex p n = min (n - 1) (p * n / 100 - 1) := by
  simp only [percentileIndex]
  split_ifs <;> omega

/-- **C3 (amended)**: for every non-empty latency list of length `n` and every
percentile `p`, the reported value is the element at index
`⌊p/100 × n⌋ − 1` (truncation, not ceiling), clamped to `[0, n−1]`; in
particular `p = 100` still selects the last (maximal) element. -/
theorem percentileValue_floor_rank (p : ℕ) (L : List ℕ) (h : L ≠ []) :
    percentileValue p L =
      L.getD (min (L.length - 1) (p * L.length / 100 - 1)) 0 ∧
    percentileValue 100 L = L.getLastD 0 := by
  have hn : 0 < L.length := List.length_pos.mpr h
  constructor
  · rw [percentileValue, percentileIndex_eq_min p L.length hn]
  · rw [percentileValue, percentileIndex_eq_min 100 L.length hn]
    have hidx : min (L.length - 1) (100 * L.length / 100 - 1) = L.length - 1 := by
      omega
    rw [hidx, List.getLastD_eq_getLast?, List.getD_eq_getElem?_getD,
      List.getLast?_eq_getElem?]

/-- Witness for `percentileValue_floor_rank` at `p = 95` on `[10, 20, 30]`. -/
theorem percentileValue_floor_rank_witness :
    percentileValue 95 [10, 20, 30] =
      [10, 20, 30].getD
        (min ([10, 20, 30].length - 1) (95 * [10, 20, 30].length / 100 - 1)) 0 ∧
    percentileValue 100 [10, 20, 30] = [10, 20, 30].getLastD 0 :=
  percentileValue_floor_rank 95 [10, 20, 30] (by decide)

/-- The per-family statistics a comparison score reads: probe counts and the
average latency in nanoseconds. -/
structure FamilyStats where
  Received : ℕ
  Sent : ℕ
  AvgNs : ℕ
  deriving Repr, DecidableEq

/-- The per-protocol score computed inline in `calculateComparisonScores`
(`main.go` lines 2948–2970): fraction success rate times
`1000 / avgLatencyMs`, and `0` when no probe succeeded.  Go `float64`
arithmetic is modelled exactly in `ℚ`. -/
def protocolScore (s : FamilyStats) : ℚ :=
  if 0 < s.Received then
    ((s.Received : ℚ) / (s.Sent : ℚ)) * (1000 / ((s.AvgNs : ℚ) / 1000000))
  else 0

/-- Family score in `calculateICMPComparisonScores` (`main.go` lines
3518–3545; same formula in `tester.go`). -/
def icmpFamilyScore (s : FamilyStats) : ℚ :=
  if 0 < s.Received then
    ((s.Received : ℚ) / (s.Sent : ℚ)) * (1000 / ((s.AvgNs : ℚ) / 1000000))
  else 0

/-- Family score in `calculateHTTPComparisonScores` (`main.go` lines
3547 ff.; same formula in `tester.go`). -/
def httpFamilyScore (s : FamilyStats) : ℚ :=
  if 0 < s.Received then
    ((s.Received : ℚ) / (s.Sent : ℚ)) * (1000 / ((s.AvgNs : ℚ) / 1000000))
  else 0

/-- Family score in the GUI `calculateDNSComparisonScores` (`tester.go` lines
1455 ff.): fraction success rate, like TCP/UDP/ICMP/HTTP. -/
def dnsFamilyScoreGui (s : FamilyStats) : ℚ :=
  if 0 < s.Received then
    ((s.Received : ℚ) / (s.Sent : ℚ)) * (1000 / ((s.AvgNs : ℚ) / 1000000))
  else 0

/-- Family score in the CLI `calculateDNSComparisonScores` (`main.go` lines
3204–3229): here the success rate is multiplied by 100 — a percentage, not a
fraction — before being multiplied by `1000 / avgLatencyMs`. -/
def dnsFamilyScoreCli (s : FamilyStats) : ℚ :=
  if 0 < s.Received then
    ((s.Received : ℚ) / (s.Sent : ℚ) * 100) * (1000 / ((s.AvgNs : ℚ) / 1000000))
  else 0

/-- **C4 counterexample**: for a DNS family with 10/10 successes and average
latency 10 ms, the CLI DNS comparison score is `10000`, not the claimed
`1000/T = 100`: the CLI DNS scorer uses the success *percentage* where
TCP/UDP/ICMP/HTTP use the fraction. -/
theorem dnsFamilyScoreCli_counterexample :
    dnsFamilyScoreCli { Received := 10, Sent := 10, AvgNs := 10000000 } = 10000 ∧
    protocolScore { Received := 10, Sent := 10, AvgNs := 10000000 } = 100 := by
  constructor
  · norm_num [dnsFamilyScoreCli]
  · norm_num [protocolScore]

/-- **C4 (amended)**: the ICMP and HTTP single-protocol comparison scores (and
the GUI's DNS score) are computed by the same unweighted
`protocolScore = successRate × (1000 / avgLatencyMs)` formula used for
TCP/UDP, so with 100% success and average latency `T` ms the score is exactly
`1000/T`, and zero successes score 0; the CLI's DNS comparison score instead
multiplies the success rate by 100, yielding `100 × protocolScore`. -/
theorem comparison_score_formulas (s : FamilyStats) :
    icmpFamilyScore s = protocolScore s ∧
    httpFamilyScore s = protocolScore s ∧
    dnsFamilyScoreGui s = protocolScore s ∧
    dnsFamilyScoreCli s = 100 * protocolScore s ∧
    (s.Received = 0 → protocolScore s = 0 ∧ dnsFamilyScoreCli s = 0) ∧
    (s.Received = s.Sent → 0 < s.Sent →
      protocolScore s = 1000 / ((s.AvgNs : ℚ) / 1000000)) := by
  refine ⟨rfl, rfl, rfl, ?_, ?_, ?_⟩
  · unfold dnsFamilyScoreCli protocolScore
    split_ifs with h
    · ring
    · rw [mul_zero]
  · intro h0
    unfold protocolScore dnsFamilyScoreCli
    simp [h0]
  · intro he hpos
    unfold protocolScore
    rw [if_pos (he ▸ hpos), he,
      div_self (Nat.cast_ne_zero.mpr (Nat.pos_iff_ne_zero.mp hpos)), one_mul]

/-- Witness for `comparison_score_formulas`: a family with 5/5 successes at
25 ms scores exactly `1000/25 = 40`, and a family with no successes scores
0. -/
theorem comparison_score_formulas_witness :
    protocolScore { Received := 5, Sent := 5, AvgNs := 25000000 } =
      1000 / ((25000000 : ℚ) / 1000000) ∧
    protocolScore { Received := 0, Sent := 5, AvgNs := 25000000 } = 0 := by
  constructor
  · exact (comparison_score_formulas
      { Received := 5, Sent := 5, AvgNs := 25000000 }).2.2.2.2.2 rfl (by decide)
  · exact ((comparison_score_formulas
      { Received := 0, Sent := 5, AvgNs := 25000000 }).2.2.2.2.1 rfl).1

/-- The output fields of `calculateComparisonScores` the claims read. -/
structure ComparisonScores where
  IPv4Score : ℚ
  IPv6Score : ℚ
  Winner : String
  deriving Repr, DecidableEq

/-- `calculateComparisonScores` (`main.go` lines 2938–2983): the four
per-protocol scores (computed inline by the `protocolScore` formula), the
`TCP×0.6 + UDP×0.4` weighting per family, and winner selection
(`>` comparisons, `else` ⇒ "Tie"). -/
def calculateComparisonScores (tcp4 tcp6 udp4 udp6 : FamilyStats) :
    ComparisonScores :=
  let tcpv4Score := protocolScore tcp4
  let tcpv6Score := protocolScore tcp6
  let udpv4Score := protocolScore udp4
  let udpv6Score := protocolScore udp6
  let ipv4Score := tcpv4Score * (6 / 10) + udpv4Score * (4 / 10)
  let ipv6Score := tcpv6Score * (6 / 10) + udpv6Score * (4 / 10)
  { IPv4Score := ipv4Score, IPv6Score := ipv6Score,
    Winner := if ipv6Score < ipv4Score then "IPv4"
      else if ipv4Score < ipv6Score then "IPv6" else "Tie" }

/-- **C8**: in TCP/UDP comparison mode the combined family score is
`0.6 × TCPscore + 0.4 × UDPscore`; with TCP at 15 ms / 100% and UDP at
25 ms / 100% the IPv4 family score is exactly 56 (well within the claimed
±0.01); and the winner is the family with the strictly higher score, equal
scores yielding "Tie". -/
theorem calculateComparisonScores_spec (tcp4 tcp6 udp4 udp6 : FamilyStats) :
    (calculateComparisonScores tcp4 tcp6 udp4 udp6).IPv4Score =
      (6 / 10 : ℚ) * protocolScore tcp4 + (4 / 10 : ℚ) * protocolScore udp4 ∧
    (calculateComparisonScores tcp4 tcp6 udp4 udp6).IPv6Score =
      (6 / 10 : ℚ) * protocolScore tcp6 + (4 / 10 : ℚ) * protocolScore udp6 ∧
    ((calculateComparisonScores tcp4 tcp6 udp4 udp6).Winner = "IPv4" ↔
      (calculateComparisonScores tcp4 tcp6 udp4 udp6).IPv6Score <
        (calculateComparisonScores tcp4 tcp6 udp4 udp6).IPv4Score) ∧
    ((calculateComparisonScores tcp4 tcp6 udp4 udp6).Winner = "IPv6" ↔
      (calculateComparisonScores tcp4 tcp6 udp4 udp6).IPv4Score <
        (calculateComparisonScores tcp4 tcp6 udp4 udp6).IPv6Score) ∧
    ((calculateComparisonScores tcp4 tcp6 udp4 udp6).Winner = "Tie" ↔
      (calculateComparisonScores tcp4 tcp6 udp4 udp6).IPv4Score =
        (calculateComparisonScores tcp4 tcp6 udp4 udp6).IPv6Score) ∧
    (calculateComparisonScores { Received := 10, Sent := 10, AvgNs := 15000000 }
      tcp6 { Received := 10, Sent := 10, AvgNs := 25000000 } udp6).IPv4Score = 56 := by
  refine ⟨by simp only [calculateComparisonScores]; ring,
    by simp only [calculateComparisonScores]; ring, ?_, ?_, ?_, ?_⟩
  · simp only [calculateComparisonScores]
    split_ifs with h1 h2 <;> simp_all
  · simp only [calculateComparisonScores]
    split_ifs with h1 h2 <;> simp_all
    linarith
  · simp only [calculateComparisonScores]
    split_ifs with h1 h2 <;> simp_all <;> linarith
  · simp only [calculateComparisonScores]
    norm_num [protocolScore]

/-- Witness for `calculateComparisonScores_spec`: concrete equal families tie,
and the 15 ms / 25 ms configuration scores 56. -/
theorem calculateComparisonScores_spec_witness :
    (calculateComparisonScores { Received := 10, Sent := 10, AvgNs := 15000000 }
      { Received := 10, Sent := 10, AvgNs := 15000000 }
      { Received := 10, Sent := 10, AvgNs := 25000000 }
      { Received := 10, Sent := 10, AvgNs := 25000000 }).IPv4Score = 56 :=
  (calculateComparisonScores_spec
    { Received := 10, Sent := 10, AvgNs := 15000000 }
    { Received := 10, Sent := 10, AvgNs := 15000000 }
    { Received := 10, Sent := 10, AvgNs := 25000000 }
    { Received := 10, Sent := 10, AvgNs := 25000000 }).2.2.2.2.2

/-- `data[2] = 0; data[3] = 0` — clearing the ICMP checksum field before
summing (`calculateChecksum`, `main.go` lines 2568–2570). -/
def zeroChecksumField (data : List ℕ) : List ℕ :=
  (data.set 2 0).set 3 0

/-- The 16-bit big-endian word sum of `calculateChecksum`
(`main.go` lines 2574–2582): pairs contribute `data[i]<<8 + data[i+1]`, an
odd trailing byte contributes `data[len-1]<<8`. -/
def wordSum : List ℕ → ℕ
  | [] => 0
  | [b] => b * 256
  | b1 :: b2 :: rest => (b1 * 256 + b2) + wordSum rest

/-- The carry-folding loop of `calculateChecksum` (`main.go` lines 2585–2587):
`for sum>>16 > 0 { sum = sum&0xffff + sum>>16 }`. -/
def foldCarries (s : ℕ) : ℕ :=
  if s < 65536 then s else foldCarries (s % 65536 + s / 65536)
termination_by s
decreasing_by omega

/-- `calculateChecksum` (`main.go` lines 2567–2590, identical copy in
`tester.go` lines 1332–1351): zero the checksum field, sum the 16-bit words,
fold the carries, and return the one's complement of the low 16 bits
(`uint16(^sum)` equals `0xFFFF - sum` once the fold has brought
`sum < 0x10000`). -/
def calculateChecksum (data : List ℕ) : ℕ :=
  65535 - foldCarries (wordSum (zeroChecksumField data))

lemma foldCarries_lt (s : ℕ) : foldCarries s < 65536 := by
  induction s using foldCarries.induct with
  | case1 s h => rw [foldCarries, if_pos h]; exact h
  | case2 s h ih =>
    rw [foldCarries, if_neg h]
    exact ih

lemma foldCarries_le (s : ℕ) : foldCarries s ≤ s := by
  induction s using foldCarries.induct with
  | case1 s h => rw [foldCarries, if_pos h]
  | case2 s h ih =>
    rw [foldCarries, if_neg h]
    omega

lemma foldCarries_mod (s : ℕ) : foldCarries s % 65535 = s % 65535 := by
  induction s using foldCarries.induct with
  | case1 s h => rw [foldCarries, if_pos h]
  | case2 s h ih =>
    rw [foldCarries, if_neg h, ih]
    omega

lemma foldCarries_pos (s : ℕ) (hs : 0 < s) : 0 < foldCarries s := by
  induction s using foldCarries.induct with
  | case1 s h => rw [foldCarries, if_pos h]; exact hs
  | case2 s h ih =>
    rw [foldCarries, if_neg h]
    exact ih (by omega)

/-- **C5**: for every ICMP packet buffer (even or odd length, at least the 4
bytes Go's in-place clearing touches), zeroing the 16-bit checksum field and
then adding all 16-bit big-endian words of the packet plus the value returned
by `calculateChecksum`, folding carries into the low 16 bits, yields
`0xFFFF`. -/
theorem checksum_sums_to_ffff (data : List ℕ) (h : 4 ≤ data.length) :
    foldCarries (wordSum (zeroChecksumField data) + calculateChecksum data) =
      65535 := by
  rw [calculateChecksum]
  set W := wordSum (zeroChecksumField data) with hW
  set T := W + (65535 - foldCarries W) with hT
  have h1 : foldCarries W < 65536 := foldCarries_lt W
  have h2 : foldCarries W % 65535 = W % 65535 := foldCarries_mod W
  have h3 : foldCarries W ≤ W := foldCarries_le W
  have hTpos : 0 < T := by omega
  have h4 : foldCarries T < 65536 := foldCarries_lt T
  have h5 : foldCarries T % 65535 = T % 65535 := foldCarries_mod T
  have h6 : 0 < foldCarries T := foldCarries_pos T hTpos
  omega

/-- Witness for `checksum_sums_to_ffff`: a concrete odd-length (9-byte) ICMP
echo-request buffer. -/
theorem checksum_sums_to_ffff_witness :
    foldCarries (wordSum (zeroChecksumField [8, 0, 0, 0, 1, 2, 3, 4, 5]) +
      calculateChecksum [8, 0, 0, 0, 1, 2, 3, 4, 5]) = 65535 :=
  checksum_sums_to_ffff [8, 0, 0, 0, 1, 2, 3, 4, 5] (by decide)

/-- The QNAME-encoding loop of `buildDNSQuery` (`main.go` lines 2547–2554):
for each dot-separated label, reject labels longer than 63 bytes, otherwise
append the length byte followed by the label bytes.  Labels are the result of
Go's `strings.Split(name, ".")`, modelled as byte lists. -/
def encodeDomainLabels : List (List ℕ) → Option (List ℕ)
  | [] => some []
  | part :: rest =>
    if 63 < part.length then none
    else (encodeDomainLabels rest).map (fun tail => (part.length :: part) ++ tail)

/-- `buildDNSQuery` (`main.go` lines 2507–2564, identical copy in `tester.go`
lines 1198–1247).  The random 16-bit query ID (drawn from `crypto/rand`, an
external collaborator) is a parameter.  Header: ID, flags `0x0100`,
`qdcount = 1`, other counts 0, all big-endian; then the encoded QNAME, its
zero terminator, and QTYPE = 1 (A), QCLASS = 1 (IN) as big-endian 16-bit
values. -/
def buildDNSQuery (queryID : ℕ) (domainParts : List (List ℕ)) :
    Option (List ℕ) :=
  match encodeDomainLabels domainParts with
  | none => none
  | some qname =>
    some ([queryID / 256 % 256, queryID % 256, 1, 0, 0, 1, 0, 0, 0, 0, 0, 0]
      ++ qname ++ [0] ++ [0, 1, 0, 1])

/-- The DNS query byte layout as the specification describes it: big-endian
ID, flags `0x0100`, `qdcount = 1`, other counts 0, length-prefixed labels
terminated by a zero byte, then QTYPE and QCLASS as big-endian 16-bit
values. -/
def dnsQuerySpecBytes (queryID : ℕ) (domainParts : List (List ℕ)) : List ℕ :=
  [queryID / 256, queryID % 256, 1, 0, 0, 1, 0, 0, 0, 0, 0, 0]
    ++ (domainParts.map (fun part => part.length :: part)).flatten
    ++ [0, 0, 1, 0, 1]

lemma encodeDomainLabels_of_short {domainParts : List (List ℕ)}
    (h : ∀ part ∈ domainParts, part.length ≤ 63) :
    encodeDomainLabels domainParts =
      some ((domainParts.map (fun part => part.length :: part)).flatten) := by
  induction domainParts with
  | nil => rfl
  | cons part rest ih =>
    have hp : ¬ 63 < part.length := by
      have := h part (by simp)
      omega
    rw [encodeDomainLabels, if_neg hp,
      ih (fun q hq => h q (by simp [hq]))]
    simp

lemma encodeDomainLabels_of_long {domainParts : List (List ℕ)}
    (h : ∃ part ∈ domainParts, 63 < part.length) :
    encodeDomainLabels domainParts = none := by
  induction domainParts with
  | nil => obtain ⟨part, hmem, _⟩ := h; cases hmem
  | cons q rest ih =>
    obtain ⟨part, hmem, hlen⟩ := h
    rcases List.mem_cons.mp hmem with rfl | hmem
    · rw [encodeDomainLabels, if_pos hlen]
    · rw [encodeDomainLabels]
      split_ifs with hq
      · rfl
      · rw [ih ⟨part, hmem, hlen⟩]
        rfl

/-- **C6**: for every 16-bit query ID and every domain all of whose labels are
at most 63 bytes, `buildDNSQuery` succeeds and produces precisely the header
(whose first two bytes, read big-endian, reproduce the query ID; flags
`0x0100`; `qdcount = 1`; other counts 0), the QNAME as length-prefixed labels
terminated by a zero byte, and big-endian QTYPE/QCLASS; a label longer than
63 bytes yields a build error. -/
theorem buildDNSQuery_spec (queryID : ℕ) (domainParts : List (List ℕ))
    (hid : queryID < 65536) :
    ((∀ part ∈ domainParts, part.length ≤ 63) →
      buildDNSQuery queryID domainParts =
        some (dnsQuerySpecBytes queryID domainParts) ∧
      (dnsQuerySpecBytes queryID domainParts).headD 0 * 256 +
        (dnsQuerySpecBytes queryID domainParts).tail.headD 0 = queryID) ∧
    ((∃ part ∈ domainParts, 63 < part.length) →
      buildDNSQuery queryID domainParts = none) := by
  constructor
  · intro hshort
    constructor
    · rw [buildDNSQuery, encodeDomainLabels_of_short hshort]
      have hdiv : queryID / 256 % 256 = queryID / 256 := by omega
      simp [dnsQuerySpecBytes, hdiv]
    · simp only [dnsQuerySpecBytes]
      simp only [List.cons_append, List.headD_cons, List.tail_cons]
      omega
  · intro hlong
    rw [buildDNSQuery, encodeDomainLabels_of_long hlong]

/-- Witness for `buildDNSQuery_spec`: query ID `0xABCD` with the labels of
`dns.google`, and the failing case of a 64-byte label. -/
theorem buildDNSQuery_spec_witness :
    buildDNSQuery 43981 [[100, 110, 115], [103, 111, 111, 103, 108, 101]] =
      some (dnsQuerySpecBytes 43981
        [[100, 110, 115], [103, 111, 111, 103, 108, 101]]) ∧
    buildDNSQuery 43981 [List.replicate 64 97] = none := by
  constructor
  · exact ((buildDNSQuery_spec 43981
      [[100, 110, 115], [103, 111, 111, 103, 108, 101]] (by decide)).1
      (by decide)).1
  · exact (buildDNSQuery_spec 43981 [List.replicate 64 97] (by decide)).2
      ⟨List.replicate 64 97, by simp, by simp⟩

/-- The three mechanisms an ICMP probe can use. -/
inductive ProbeMechanism where
  | unprivileged
  | raw
  | tcpFallback
  deriving Repr, DecidableEq

/-- The outcome of one mechanism's attempt: whether it succeeded, and — when
it failed — whether the error text matches the permission-denied string test
(`strings.Contains(err, "operation not permitted")`, plus
`"permission denied"` in the GUI). -/
structure AttemptOutcome where
  success : Bool
  permissionErr : Bool
  deriving Repr, DecidableEq

/-- `testICMPv4` / `testICMPv6` from the GUI `tester.go` (lines 509–529 and
690–710): try the unprivileged datagram socket; on a permission-class error
try the raw socket; on a second permission-class error run the TCP-connect
probe; any other failure is returned as is.  Returns the ordered list of
mechanisms attempted together with the returned outcome. -/
def testICMPGui (unpriv raw tcp : AttemptOutcome) :
    List ProbeMechanism × AttemptOutcome :=
  let step1 := ([ProbeMechanism.unprivileged], unpriv)
  if unpriv.success then step1
  else
    let step2 := if unpriv.permissionErr
      then (step1.1 ++ [ProbeMechanism.raw], raw) else step1
    if step2.2.success then step2
    else if step2.2.permissionErr then
      (step2.1 ++ [ProbeMechanism.tcpFallback], tcp)
    else step2

/-- `testICMPv4` / `testICMPv6` from the CLI `main.go` (lines 1758–1777 and
1955–1974): the unprivileged attempt is skipped (`TODO` comment: "Skipping
for now and using raw sockets directly"); the raw socket is tried first, and
on an "operation not permitted" error the probe falls back directly to
TCP-connect; any other failure is returned as is. -/
def testICMPCli (raw tcp : AttemptOutcome) :
    List ProbeMechanism × AttemptOutcome :=
  if raw.success then ([ProbeMechanism.raw], raw)
  else if raw.permissionErr then
    ([ProbeMechanism.raw, ProbeMechanism.tcpFallback], tcp)
  else ([ProbeMechanism.raw], raw)

/-- **C2 counterexample**: in the CLI tester the very first mechanism
attempted is the raw socket — the unprivileged datagram socket is never
tried, even when the raw attempt fails with a permission error. -/
theorem icmp_escalation_counterexample :
    (testICMPCli { success := true, permissionErr := false }
      { success := true, permissionErr := false }).1 = [ProbeMechanism.raw] ∧
    ProbeMechanism.unprivileged ∉
      (testICMPCli { success := false, permissionErr := true }
        { success := true, permissionErr := false }).1 := by
  decide

/-- **C2 (amended)**: the GUI tester implements the claimed escalation for
IPv4 and IPv6 — unprivileged datagram socket first, raw socket on a
permission-class error, TCP-connect on a second permission-class error, and
any other error class returned immediately with no further fallback — while
the CLI tester skips the unprivileged step entirely: it tries the raw socket
first and falls back directly to TCP-connect on a permission error, returning
any other raw-socket failure immediately. -/
theorem icmp_escalation_chains (u r t : AttemptOutcome) :
    (u.success = true → testICMPGui u r t = ([ProbeMechanism.unprivileged], u)) ∧
    (u.success = false → u.permissionErr = false →
      testICMPGui u r t = ([ProbeMechanism.unprivileged], u)) ∧
    (u.success = false → u.permissionErr = true → r.success = true →
      testICMPGui u r t =
        ([ProbeMechanism.unprivileged, ProbeMechanism.raw], r)) ∧
    (u.success = false → u.permissionErr = true → r.success = false →
      r.permissionErr = false →
      testICMPGui u r t =
        ([ProbeMechanism.unprivileged, ProbeMechanism.raw], r)) ∧
    (u.success = false → u.permissionErr = true → r.success = false →
      r.permissionErr = true →
      testICMPGui u r t =
        ([ProbeMechanism.unprivileged, ProbeMechanism.raw,
          ProbeMechanism.tcpFallback], t)) ∧
    (r.success = true → testICMPCli r t = ([ProbeMechanism.raw], r)) ∧
    (r.success = false → r.permissionErr = true →
      testICMPCli r t =
        ([ProbeMechanism.raw, ProbeMechanism.tcpFallback], t)) ∧
    (r.success = false → r.permissionErr = false →
      testICMPCli r t = ([ProbeMechanism.raw], r)) := by
  obtain ⟨us, up⟩ := u
  obtain ⟨rs, rp⟩ := r
  cases us <;> cases up <;> cases rs <;> cases rp <;>
    exact ⟨by intro h; simp_all [testICMPGui],
      by intro h1 h2; simp_all [testICMPGui],
      by intro h1 h2 h3; simp_all [testICMPGui],
      by intro h1 h2 h3 h4; simp_all [testICMPGui],
      by intro h1 h2 h3 h4; simp_all [testICMPGui],
      by intro h; simp_all [testICMPCli],
      by intro h1 h2; simp_all [testICMPCli],
      by intro h1 h2; simp_all [testICMPCli]⟩

/-- Witness for `icmp_escalation_chains`: both permission errors in sequence
drive the GUI chain down to the TCP fallback. -/
theorem icmp_escalation_chains_witness :
    testICMPGui { success := false, permissionErr := true }
      { success := false, permissionErr := true }
      { success := true, permissionErr := false } =
      ([ProbeMechanism.unprivileged, ProbeMechanism.raw,
        ProbeMechanism.tcpFallback],
       { success := true, permissionErr := false }) :=
  (icmp_escalation_chains
    { success := false, permissionErr := true }
    { success := false, permissionErr := true }
    { success := true, permissionErr := false }).2.2.2.2.1 rfl rfl rfl rfl

/-- The acceptance test of the GUI unprivileged ICMPv4 receive loop
(`sendICMPv4Unprivileged`, `tester.go` lines 613–628): a datagram shorter
than 8 bytes is skipped, a datagram whose first byte is not 0 (echo reply) is
skipped, and an echo reply is accepted exactly when its big-endian sequence
field (bytes 6–7) equals the expected sequence number. -/
def icmpReplyMatches (expectedSeq : ℕ) (reply : List ℕ) : Bool :=
  if reply.length < 8 then false
  else if reply.headD 0 = 0 then
    decide (reply.getD 6 0 * 256 + reply.getD 7 0 = expectedSeq)
  else false

/-- The receive loop itself: the list of datagrams stands for the successive
`recvfrom` results inside the timeout window; exhausting it stands for the
select timeout firing.  Mismatched datagrams are skipped and reading
continues. -/
def icmpReceiveLoop (expectedSeq : ℕ) : List (List ℕ) → Bool
  | [] => false
  | reply :: rest =>
    if icmpReplyMatches expectedSeq reply then true
    else icmpReceiveLoop expectedSeq rest

/-- Possible outcomes of the DNS-over-UDP response handling. -/
inductive DNSOutcome where
  | accepted
  | tooShort
  | idMismatch
  | timeout
  deriving Repr, DecidableEq

/-- `testDNSUDP` response handling (`main.go` lines 2242–2262, same shape in
`tester.go`): exactly one datagram is read from the socket; a response
shorter than 12 bytes is a framing error, a response whose big-endian ID
(bytes 0–1) differs from the query ID is an ID-mismatch error, and otherwise
the probe succeeds.  The probe returns after that single read — it never
reads a second datagram. -/
def dnsUDPReceive (queryID : ℕ) : List (List ℕ) → DNSOutcome
  | [] => DNSOutcome.timeout
  | response :: _ =>
    if response.length < 12 then DNSOutcome.tooShort
    else if response.headD 0 * 256 + response.getD 1 0 ≠ queryID then
      DNSOutcome.idMismatch
    else DNSOutcome.accepted

/-- **C9 counterexample**: a DNS-over-UDP probe that receives a mismatched
response followed by a correctly matching one still fails with an ID
mismatch: the DNS read returns on the first mismatched packet instead of
continuing until its timeout, so the later matching datagram is never read
(whereas the ICMP loop on the same kind of stream succeeds). -/
theorem dns_receive_counterexample :
    dnsUDPReceive 7 [List.replicate 12 0, 0 :: 7 :: List.replicate 10 0] =
      DNSOutcome.idMismatch ∧
    dnsUDPReceive 7 [0 :: 7 :: List.replicate 10 0] = DNSOutcome.accepted := by
  decide

/-- **C9 (amended)**: a malformed or mismatched reply is never accepted as
success — ICMP acceptance requires an 8-byte-minimum echo-reply datagram with
the expected sequence number, and DNS acceptance requires a 12-byte-minimum
response echoing the query ID.  The ICMP receive loop skips mismatched
datagrams and keeps reading until its own timeout elapses (it succeeds
exactly when some datagram in the window matches), but the DNS probes read a
single response and return a failed result immediately on a mismatched
transaction ID, without reading further. -/
theorem receive_loop_mismatch_behavior (seq queryID : ℕ) (bad : List ℕ)
    (stream : List (List ℕ)) :
    (icmpReplyMatches seq bad = false →
      icmpReceiveLoop seq (bad :: stream) = icmpReceiveLoop seq stream) ∧
    (icmpReceiveLoop seq stream = true ↔
      ∃ reply ∈ stream, icmpReplyMatches seq reply = true) ∧
    (∀ reply ∈ stream, icmpReplyMatches seq reply = true →
      8 ≤ reply.length ∧ reply.headD 0 = 0 ∧
      reply.getD 6 0 * 256 + reply.getD 7 0 = seq) ∧
    (∀ response rest, dnsUDPReceive queryID (response :: rest) =
      dnsUDPReceive queryID [response]) ∧
    (∀ response rest, 12 ≤ response.length →
      response.headD 0 * 256 + response.getD 1 0 ≠ queryID →
      dnsUDPReceive queryID (response :: rest) = DNSOutcome.idMismatch) := by
  refine ⟨?_, ?_, ?_, ?_, ?_⟩
  · intro hbad
    rw [icmpReceiveLoop, hbad]
    rfl
  · induction stream with
    | nil => simp [icmpReceiveLoop]
    | cons reply rest ih =>
      constructor
      · intro htrue
        rw [icmpReceiveLoop] at htrue
        by_cases hm : icmpReplyMatches seq reply = true
        · exact ⟨reply, List.mem_cons_self _ _, hm⟩
        · rw [if_neg hm] at htrue
          obtain ⟨q, hq, hqm⟩ := ih.mp htrue
          exact ⟨q, List.mem_cons_of_mem _ hq, hqm⟩
      · rintro ⟨q, hq, hqm⟩
        rw [icmpReceiveLoop]
        rcases List.mem_cons.mp hq with rfl | hq2
        · rw [if_pos hqm]
        · by_cases hm : icmpReplyMatches seq reply = true
          · rw [if_pos hm]
          · rw [if_neg hm]
            exact ih.mpr ⟨q, hq2, hqm⟩
  · intro reply _ hm
    unfold icmpReplyMatches at hm
    split_ifs at hm with h1 h2
    exact ⟨by omega, h2, by simpa using hm⟩
  · intro response rest
    rfl
  · intro response rest hlen hmis
    rw [dnsUDPReceive, if_neg (by omega), if_pos hmis]

/-- Witness for `receive_loop_mismatch_behavior`: the ICMP loop skips a stray
non-reply datagram and then accepts the matching echo reply. -/
theorem receive_loop_mismatch_behavior_witness :
    icmpReceiveLoop 5 [[8, 0, 0, 0, 0, 0, 0, 9],
      [0, 0, 0, 0, 0, 0, 0, 5]] =
      icmpReceiveLoop 5 [[0, 0, 0, 0, 0, 0, 0, 5]] ∧
    (icmpReceiveLoop 5 [[0, 0, 0, 0, 0, 0, 0, 5]] = true ↔
      ∃ reply ∈ [[0, 0, 0, 0, 0, 0, 0, 5]],
        icmpReplyMatches 5 reply = true) := by
  constructor
  · exact (receive_loop_mismatch_behavior 5 0 [8, 0, 0, 0, 0, 0, 0, 9]
      [[0, 0, 0, 0, 0, 0, 0, 5]]).1 (by decide)
  · exact (receive_loop_mismatch_behavior 5 0 []
      [[0, 0, 0, 0, 0, 0, 0, 5]]).2.1

/-- Write `bytes` into `buf` starting at `start`; `none` models the Go
slice-bounds panic when the write range exceeds the buffer
(`binary.BigEndian.PutUint64(packet[8:16], ...)` panics when
`len(packet) < 16`). -/
def writeBytes (buf : List ℕ) (start : ℕ) (bytes : List ℕ) : Option (List ℕ) :=
  if start + bytes.length ≤ buf.length then
    some (buf.take start ++ bytes ++ buf.drop (start + bytes.length))
  else none

/-- Big-endian encoding of a 16-bit value (`binary.BigEndian.PutUint16`). -/
def putUint16BE (v : ℕ) : List ℕ :=
  [v / 256 % 256, v % 256]

/-- Big-endian encoding of a 64-bit value (`binary.BigEndian.PutUint64`). -/
def putUint64BE (v : ℕ) : List ℕ :=
  (List.range 8).map (fun i => v / 256 ^ (7 - i) % 256)

/-- The packet construction of `sendICMPv4Unprivileged` (`main.go` lines
1824–1833, `tester.go` lines 575–582; the raw and IPv6 variants build the
same layout): allocate `8 + size` zero bytes, set type/code/checksum bytes,
write the 16-bit identifier and sequence, and unconditionally write the
64-bit send timestamp into bytes 8–16. -/
def buildEchoRequestPacket (size pid seq timestampNs : ℕ) :
    Option (List ℕ) :=
  let packet := List.replicate (8 + size) 0
  let packet := packet.set 0 8
  let packet := packet.set 1 0
  let packet := packet.set 2 0
  let packet := packet.set 3 0
  match writeBytes packet 4 (putUint16BE (pid % 65536)) with
  | none => none
  | some packet2 =>
    match writeBytes packet2 6 (putUint16BE (seq % 65536)) with
    | none => none
    | some packet3 => writeBytes packet3 8 (putUint64BE timestampNs)

lemma writeBytes_some {buf : List ℕ} {start : ℕ} {bytes : List ℕ}
    (h : start + bytes.length ≤ buf.length) :
    writeBytes buf start bytes =
      some (buf.take start ++ bytes ++ buf.drop (start + bytes.length)) := by
  rw [writeBytes, if_pos h]

lemma writeBytes_none {buf : List ℕ} {start : ℕ} {bytes : List ℕ}
    (h : buf.length < start + bytes.length) :
    writeBytes buf start bytes = none := by
  rw [writeBytes, if_neg (by omega)]

/-- **C10**: the ICMP echo-request construction allocates `8 + icmpSize`
bytes and unconditionally writes the 8-byte send timestamp into bytes 8–16,
so it is total exactly under the precondition `icmpSize ≥ 8`: for any
configured `icmpSize < 8` the slice write is out of range (a Go panic),
even though the external interface admits any `icmpSize ≥ 0`. -/
theorem buildEchoRequestPacket_totality (size pid seq ts : ℕ) :
    (8 ≤ size → ∃ p, buildEchoRequestPacket size pid seq ts = some p ∧
      p.length = 8 + size) ∧
    (size < 8 → buildEchoRequestPacket size pid seq ts = none) := by
  have h16 : ∀ v : ℕ, (putUint16BE v).length = 2 := fun v => rfl
  have h64 : (putUint64BE ts).length = 8 := by simp [putUint64BE]
  constructor
  · intro hsize
    rw [buildEchoRequestPacket,
      writeBytes_some (by simp [h16]; omega)]
    dsimp only
    rw [writeBytes_some (by simp [h16]; omega)]
    dsimp only
    rw [writeBytes_some (by simp [h16, h64]; omega)]
    refine ⟨_, rfl, ?_⟩
    simp [h16, h64]
    omega
  · intro hsize
    rw [buildEchoRequestPacket,
      writeBytes_some (by simp [h16]; omega)]
    dsimp only
    rw [writeBytes_some (by simp [h16]; omega)]
    dsimp only
    rw [writeBytes_none (by simp [h16, h64]; omega)]

/-- Witness for `buildEchoRequestPacket_totality`: the default 64-byte payload
builds a 72-byte packet, while a 3-byte payload makes the timestamp write
panic. -/
theorem buildEchoRequestPacket_totality_witness :
    (∃ p, buildEchoRequestPacket 64 1234 1 99 = some p ∧ p.length = 8 + 64) ∧
    buildEchoRequestPacket 3 1234 1 99 = none :=
  ⟨(buildEchoRequestPacket_totality 64 1234 1 99).1 (by decide),
   (buildEchoRequestPacket_totality 3 1234 1 99).2 (by decide)⟩

end ProtoTester
